import Mathlib

/-!
Shallow embedding of the qflow fan-out proxy (package `qflow`): the data
model (`durable.Request`, `Endpoint`, `Config`), one loop iteration of
`HTTPWorker`, the ingress `HandleRequest` handler, the startup logic of
`ListenAndServe` (config defaulting and host validation via `isValidURL`),
and a model of the Go standard library's `net/url.ParseRequestURI` as used
by `isValidURL`.

External effects (metric increments, channel sends, HTTP calls, response
writes) are represented as explicit event traces; outcomes of external
calls (`ioutil.ReadAll`, `http.NewRequest`, `client.Do`) are inputs to the
embedded functions, since the embedding has no I/O.
-/

namespace QFlow

/-- `durable.Request`: the record flowing through the system — method,
path-plus-query URL as seen at ingress, and raw body bytes. -/
structure Request where
  method : String
  url : String
  body : List Nat
deriving DecidableEq, Repr

/-- `Endpoint` (the fields the embedded code reads): name, upstream hosts,
and per-request timeout in nanoseconds (Go `time.Duration`). The channels
(`Writer`, `DurableChannel`, `WorkerChannel`) are represented by events. -/
structure Endpoint where
  name : String
  hosts : List String
  timeoutNs : Nat
deriving DecidableEq, Repr

/-- Result of `http.NewRequest(req.Method, url, r)`. -/
inductive NewRequestResult where
  | ok
  | err (msg : String)
deriving DecidableEq, Repr

/-- Result of `client.Do(proxyReq)`: either a response was received at the
transport level (carrying an HTTP status code) or a transport error
occurred (timeout, connection refused, DNS failure, TLS failure, ...). -/
inductive DoResult where
  | response (status : Nat)
  | transportError (msg : String)
deriving DecidableEq, Repr

/-- Observable effects of one `HTTPWorker` loop iteration, in program
order. -/
inductive WorkerEvent where
  | incEndpointRequests (endpoint : String)
  | incEndpointFailures (endpoint : String)
  | observeLatencyUs (endpoint : String) (us : Nat)
  | httpCall (url : String) (method : String) (body : List Nat)
  | writerEnqueue (endpoint : String) (req : Request)
  | drainAndCloseBody
deriving DecidableEq, Repr

/-- One iteration of the `HTTPWorker` loop body, translated from the
source. `count` is the worker's local counter variable (`var count int`);
note the source never increments it inside the loop, so it is returned
unchanged. `elapsedNs` is the wall time `time.Since(start).Nanoseconds()`
measured around `client.Do`; the histogram observes
`float64(respLatencyNS / microInNS)`, i.e. integer division by 1000. -/
def HTTPWorkerStep (endpoint : Endpoint) (count : Nat) (req : Request)
    (newReq : NewRequestResult) (doRes : DoResult) (elapsedNs : Nat) :
    Nat × List WorkerEvent :=
  let sizeEndpoints := endpoint.hosts.length
  let url := endpoint.hosts.getD (count % sizeEndpoints) "" ++ req.url
  match newReq with
  | .err _ => (count, [])
  | .ok =>
    let elasped := elapsedNs / 1000
    match doRes with
    | .transportError _ =>
      (count,
       [.incEndpointRequests endpoint.name,
        .httpCall url req.method req.body,
        .observeLatencyUs endpoint.name elasped,
        .incEndpointFailures endpoint.name,
        .writerEnqueue endpoint.name req])
    | .response _ =>
      (count,
       [.incEndpointRequests endpoint.name,
        .httpCall url req.method req.body,
        .observeLatencyUs endpoint.name elasped,
        .drainAndCloseBody])

/-- Several consecutive iterations of one worker's loop: each list element
supplies one dequeued record together with the outcomes of its external
calls; the worker's `count` variable is threaded through. -/
def HTTPWorkerRun (endpoint : Endpoint) (count : Nat) :
    List (Request × NewRequestResult × DoResult × Nat) → Nat × List WorkerEvent
  | [] => (count, [])
  | (req, newReq, doRes, elapsedNs) :: rest =>
    let step := HTTPWorkerStep endpoint count req newReq doRes elapsedNs
    let next := HTTPWorkerRun endpoint step.1 rest
    (next.1, step.2 ++ next.2)

/-- Result of `ioutil.ReadAll(req.Body)` in the ingress handler. -/
inductive ReadBodyResult where
  | ok (body : List Nat)
  | err (msg : String)
deriving DecidableEq, Repr

/-- Observable effects of `HandleRequest`, in program order. -/
inductive IngressEvent where
  | incRequests
  | incFailures
  | writerEnqueue (endpoint : String) (req : Request)
  | respond (status : Nat)
deriving DecidableEq, Repr

/-- `(*Handler).HandleRequest`, translated from the source: increment
`requests`; read the whole body (no size limit is applied); on read error
increment `failures` and reply 400; otherwise build one `durable.Request`
and send it to every endpoint's `Writer` channel, then reply 204. -/
def HandleRequest (endpoints : List Endpoint) (method urlStr : String)
    (readBody : ReadBodyResult) : List IngressEvent :=
  .incRequests ::
  (match readBody with
   | .err _ => [.incFailures, .respond 400]
   | .ok body =>
     let r : Request := { method := method, url := urlStr, body := body }
     endpoints.map (fun e => IngressEvent.writerEnqueue e.name r) ++ [.respond 204])

/-- The `url.URL` fields the source reads after parsing. -/
structure GoURL where
  scheme : String
deriving DecidableEq, Repr

/-- `strings.HasPrefix`, over character lists (the library version is
byte-wise; on the ASCII inputs here they agree). -/
def dataStartsWith : List Char → List Char → Bool
  | _, [] => true
  | [], _ :: _ => false
  | c :: cs, p :: ps => c == p && dataStartsWith cs ps

/-- String front-match used by the parse model. -/
def strStartsWith (s pre : String) : Bool :=
  dataStartsWith s.data pre.data

/-- ASCII lower-casing of one character (`strings.ToLower` on scheme
characters, which are ASCII by construction). -/
def charToLower (c : Char) : Char :=
  if 'A' ≤ c ∧ c ≤ 'Z' then Char.ofNat (c.toNat + 32) else c

/-- `strings.ToLower` restricted to ASCII strings. -/
def strToLower (s : String) : String :=
  String.mk (s.data.map charToLower)

/-- Outcome of Go's `getScheme` helper inside `net/url`. -/
inductive SchemeResult where
  | missingScheme
  | noScheme (rest : String)
  | found (scheme rest : String)
deriving DecidableEq, Repr

/-- Model of the scanning loop of Go `net/url.getScheme`: letters are
always allowed; digits and `+ - .` are allowed except in first position
(first position means no scheme); at `:` the scheme ends (error if the
scheme is empty); any other character means the URL has no scheme. -/
def getSchemeAux (acc : List Char) (i : Nat) (orig : String) :
    List Char → SchemeResult
  | [] => .noScheme orig
  | c :: cs =>
    if ('a' ≤ c ∧ c ≤ 'z') ∨ ('A' ≤ c ∧ c ≤ 'Z') then
      getSchemeAux (acc ++ [c]) (i + 1) orig cs
    else if ('0' ≤ c ∧ c ≤ '9') ∨ c = '+' ∨ c = '-' ∨ c = '.' then
      if i = 0 then .noScheme orig else getSchemeAux (acc ++ [c]) (i + 1) orig cs
    else if c = ':' then
      if i = 0 then .missingScheme else .found (String.mk acc) (String.mk cs)
    else .noScheme orig

/-- Model of Go `net/url.ParseRequestURI` restricted to what determines
the parse verdict and the resulting scheme: an empty string is an error;
a string with no scheme must be an absolute path (leading `/`), else the
"invalid URI for request" error; a string with a scheme is accepted (with
the scheme lower-cased), either rooted (`rest` begins with `/`) or opaque.
Sub-parsing of the authority/host part (which can also fail in Go) is not
modelled; the inputs considered here do not exercise those failures.
`none` models the Go `(nil, err)` return. -/
def goParseRequestURI (s : String) : Option GoURL :=
  if s = "" then none
  else
    match getSchemeAux [] 0 s s.data with
    | .missingScheme => none
    | .noScheme rest =>
      if strStartsWith rest "/" then some { scheme := "" } else none
    | .found scheme rest =>
      let schemeLower := strToLower scheme
      if strStartsWith rest "/" then some { scheme := schemeLower }
      else if schemeLower ≠ "" then some { scheme := schemeLower }
      else none

/-- Outcome of `isValidURL`: either a Boolean verdict was returned, or the
function panicked on a nil-pointer dereference. -/
inductive URLCheckResult where
  | verdict (valid : Bool)
  | panicNilDeref
deriving DecidableEq, Repr

/-- `isValidURL`, translated from the source. The Go code reads
`url.Scheme` before it examines `err`; when `ParseRequestURI` fails it
returns a nil `*url.URL`, so that read is a nil-pointer dereference
(`panicNilDeref`). When parsing succeeds (`err == nil`) the scheme test
decides the verdict and the later `err != nil` branch is dead. -/
def isValidURL (s : String) : URLCheckResult :=
  match goParseRequestURI s with
  | none => .panicNilDeref
  | some u =>
    if u.scheme ≠ "http" ∧ u.scheme ≠ "https" then .verdict false
    else .verdict true

/-- Endpoint entry of the configuration (`config.Endpoints`). -/
structure EndpointConfig where
  name : String
  hosts : List String
deriving DecidableEq, Repr

/-- The configuration fields `ListenAndServe` reads: `HTTP.Timeout`
(nanoseconds; `timeout.Seconds() == 0.0` holds exactly when the duration
is zero), `HTTP.Concurrency`, `Queue.MaxMessageSize`, and `Endpoints`. -/
structure Config where
  httpTimeoutNs : Nat
  httpConcurrency : Nat
  queueMaxMessageSize : Nat
  endpoints : List EndpointConfig
deriving DecidableEq, Repr

/-- The zero-value defaulting at the top of `ListenAndServe`, in source
order: timeout 10s, maxMsgSize 10 MiB, concurrency 25. Returns
(timeout, maxMsgSize, concurrency). -/
def applyDefaults (cfg : Config) : Nat × Nat × Nat :=
  let timeout := if cfg.httpTimeoutNs = 0 then 10 * 1000000000 else cfg.httpTimeoutNs
  let maxMsgSize := if cfg.queueMaxMessageSize = 0 then 1024 * 1024 * 10 else cfg.queueMaxMessageSize
  let concurrency := if cfg.httpConcurrency = 0 then 25 else cfg.httpConcurrency
  (timeout, maxMsgSize, concurrency)

/-- How the startup host-validation loop can abort: `log.Fatalf` (process
exit) or a runtime panic propagating out of `isValidURL`. -/
inductive Abort where
  | fatalExit (msg : String)
  | panicked (msg : String)
deriving DecidableEq, Repr

/-- The inner `for _, host := range endpoint.Hosts` validation loop of
`ListenAndServe`. -/
def checkHosts (name : String) : List String → Option Abort
  | [] => none
  | host :: rest =>
    match isValidURL host with
    | .panicNilDeref =>
      some (.panicked "runtime error: invalid memory address or nil pointer dereference")
    | .verdict false =>
      some (.fatalExit ("(" ++ name ++ ") [" ++ host ++ "] is not a valid endpoint url"))
    | .verdict true => checkHosts name rest

/-- The outer `for _, endpoint := range config.Endpoints` loop of
`ListenAndServe`, restricted to its validation effect. -/
def checkEndpoints : List EndpointConfig → Option Abort
  | [] => none
  | e :: rest =>
    match checkHosts e.name e.hosts with
    | some a => some a
    | none => checkEndpoints rest

/-- Outcome of startup: either the process reaches `http.ListenAndServe`
with the given effective settings and endpoint pipelines, or it exited via
`log.Fatalf`, or it panicked. -/
inductive StartupOutcome where
  | serving (timeoutNs maxMsgSize concurrency : Nat) (endpoints : List Endpoint)
  | fatalExit (msg : String)
  | panicked (msg : String)
deriving DecidableEq, Repr

/-- `ListenAndServe`, translated from the source up to the point where the
HTTP server starts: apply zero-value defaults, validate every host of
every configured endpoint (in order), and on success build one `Endpoint`
pipeline per configured endpoint. Directory creation and the actual
serving are I/O and not modelled. -/
def ListenAndServe (cfg : Config) : StartupOutcome :=
  let d := applyDefaults cfg
  match checkEndpoints cfg.endpoints with
  | some (.fatalExit m) => .fatalExit m
  | some (.panicked m) => .panicked m
  | none =>
    .serving d.1 d.2.1 d.2.2
      (cfg.endpoints.map (fun e => { name := e.name, hosts := e.hosts, timeoutNs := d.1 }))

/-- Event classifiers used by the theorems. -/
def isEnqueueEvent : IngressEvent → Bool
  | .writerEnqueue _ _ => true
  | _ => false

def isRespondEvent : IngressEvent → Bool
  | .respond _ => true
  | _ => false

def isHttpCallTo (url : String) : WorkerEvent → Bool
  | .httpCall u _ _ => u == url
  | _ => false

def isWriterEnqueue : WorkerEvent → Bool
  | .writerEnqueue _ _ => true
  | _ => false

def isIncRequestsFor (name : String) : WorkerEvent → Bool
  | .incEndpointRequests n => n == name
  | _ => false

def isIncFailuresFor (name : String) : WorkerEvent → Bool
  | .incEndpointFailures n => n == name
  | _ => false

def isObserveLatencyFor (name : String) (us : Nat) : WorkerEvent → Bool
  | .observeLatencyUs n v => n == name && v == us
  | _ => false

def isFatalExit : StartupOutcome → Bool
  | .fatalExit _ => true
  | _ => false

/-- The round-robin scenario from the spec's test section: one worker,
hosts H1 H2 H3, nine records all dispatched with transport-level success
(status 200). -/
def roundRobinEp : Endpoint :=
  { name := "a", hosts := ["http://h1", "http://h2", "http://h3"], timeoutNs := 10000000000 }

/-- Nine identical worker iterations for the round-robin scenario. -/
def roundRobinInputs : List (Request × NewRequestResult × DoResult × Nat) :=
  List.replicate 9 ({ method := "POST", url := "/x", body := [] }, .ok, .response 200, 1000)

/-- A configuration whose single endpoint has the unparseable host "foo". -/
def cfgHostFoo : Config :=
  { httpTimeoutNs := 0, httpConcurrency := 0, queueMaxMessageSize := 0,
    endpoints := [{ name := "a", hosts := ["foo"] }] }

/-- A configuration whose single endpoint has a parseable host with a
scheme that is neither http nor https. -/
def cfgHostFtp : Config :=
  { httpTimeoutNs := 0, httpConcurrency := 0, queueMaxMessageSize := 0,
    endpoints := [{ name := "a", hosts := ["ftp://x"] }] }

/-- A configuration with `queue.max_message_size = 1`. -/
def cfgMaxOne : Config :=
  { httpTimeoutNs := 0, httpConcurrency := 0, queueMaxMessageSize := 1,
    endpoints := [{ name := "a", hosts := ["http://h1"] }] }

/-- The all-zero configuration (every option takes its default). -/
def cfgAllZero : Config :=
  { httpTimeoutNs := 0, httpConcurrency := 0, queueMaxMessageSize := 0, endpoints := [] }

/-- A configuration with non-zero values for every defaulted option. -/
def cfgNonZero : Config :=
  { httpTimeoutNs := 7, httpConcurrency := 8, queueMaxMessageSize := 9, endpoints := [] }

/-- A single-host endpoint pipeline used in concrete ingress scenarios. -/
def epH1 : Endpoint :=
  { name := "a", hosts := ["http://h1"], timeoutNs := 10000000000 }

/- Helper lemmas about the ingress event trace. -/

theorem filter_enqueue_map (r : Request) (endpoints : List Endpoint) :
    (endpoints.map (fun e => IngressEvent.writerEnqueue e.name r)).filter isEnqueueEvent
      = endpoints.map (fun e => IngressEvent.writerEnqueue e.name r) := by
  induction endpoints with
  | nil => rfl
  | cons e es ih => simp [List.filter_cons, isEnqueueEvent, ih]

theorem filter_respond_map (r : Request) (endpoints : List Endpoint) :
    (endpoints.map (fun e => IngressEvent.writerEnqueue e.name r)).filter isRespondEvent = [] := by
  induction endpoints with
  | nil => rfl
  | cons e es ih => simp [List.filter_cons, isRespondEvent, ih]

theorem countP_enqueue_map (r : Request) (endpoints : List Endpoint) :
    (endpoints.map (fun e => IngressEvent.writerEnqueue e.name r)).countP isEnqueueEvent
      = endpoints.length := by
  induction endpoints with
  | nil => rfl
  | cons e es ih => simp [List.countP_cons, isEnqueueEvent, ih]

/-- Claim C1: the spec says upstream dispatches are round-robin across the
group's hosts via a per-worker counter incremented on each dispatch, so
with one worker, three hosts and nine dispatches each host gets three.
The code never increments the counter: `HTTPWorkerStep` always returns
`count` unchanged, and in the nine-dispatch scenario all nine HTTP calls
go to the first host and none to the other two. -/
theorem httpWorker_counter_never_incremented :
    (∀ (e : Endpoint) (count : Nat) (req : Request) (newReq : NewRequestResult)
        (doRes : DoResult) (elapsedNs : Nat),
      (HTTPWorkerStep e count req newReq doRes elapsedNs).1 = count)
    ∧ (HTTPWorkerRun roundRobinEp 0 roundRobinInputs).2.countP (isHttpCallTo "http://h1/x") = 9
    ∧ (HTTPWorkerRun roundRobinEp 0 roundRobinInputs).2.countP (isHttpCallTo "http://h2/x") = 0
    ∧ (HTTPWorkerRun roundRobinEp 0 roundRobinInputs).2.countP (isHttpCallTo "http://h3/x") = 0 := by
  refine ⟨?_, by decide, by decide, by decide⟩
  intro e count req newReq doRes elapsedNs
  cases newReq <;> cases doRes <;> rfl

/-- Claim C2: the claim states that startup validation always terminates
normally with a verdict and that `isValidURL` is total. In the code the
scheme field is read before the parse error is checked: on a host string
that fails to parse (such as "foo") `isValidURL` hits a nil-pointer
dereference and startup panics instead of exiting with the fatal message;
only host strings that do parse get the http/https verdict and, when
invalid, the clear fatal message naming endpoint and host. -/
theorem isValidURL_nil_deref_on_parse_error :
    goParseRequestURI "foo" = none
    ∧ isValidURL "foo" = URLCheckResult.panicNilDeref
    ∧ ListenAndServe cfgHostFoo
        = StartupOutcome.panicked "runtime error: invalid memory address or nil pointer dereference"
    ∧ isValidURL "http://example.com" = URLCheckResult.verdict true
    ∧ isValidURL "https://example.com" = URLCheckResult.verdict true
    ∧ isValidURL "ftp://example.com" = URLCheckResult.verdict false
    ∧ ListenAndServe cfgHostFtp
        = StartupOutcome.fatalExit "(a) [ftp://x] is not a valid endpoint url" := by
  decide

/-- Claim C3 counterexample: with `queue.max_message_size = 1` and a
successfully read two-byte body (which exceeds that limit), the handler
does not reply 400, does not increment `failures`, and the record IS
enqueued into the pipeline's inbox — the 204 response is sent. -/
theorem handleRequest_oversized_accepted_cex :
    (applyDefaults cfgMaxOne).2.1 = 1
    ∧ ([0, 0] : List Nat).length > 1
    ∧ IngressEvent.respond 400 ∉ HandleRequest [epH1] "POST" "/x" (.ok [0, 0])
    ∧ IngressEvent.incFailures ∉ HandleRequest [epH1] "POST" "/x" (.ok [0, 0])
    ∧ IngressEvent.writerEnqueue "a" { method := "POST", url := "/x", body := [0, 0] } ∈
        HandleRequest [epH1] "POST" "/x" (.ok [0, 0])
    ∧ IngressEvent.respond 204 ∈ HandleRequest [epH1] "POST" "/x" (.ok [0, 0]) := by
  decide

/-- Claim C3 (amended): the ingress handler applies no size limit at all —
every successfully read body, of any size (so in particular one exceeding
`max_message_size`), is enqueued into every pipeline's inbox and answered
204 with no `failures` increment; 400 and the `failures` increment happen
exactly when reading the body fails. -/
theorem handleRequest_no_size_limit (endpoints : List Endpoint)
    (method urlStr : String) (body : List Nat) (msg : String) :
    IngressEvent.respond 400 ∉ HandleRequest endpoints method urlStr (.ok body)
    ∧ IngressEvent.incFailures ∉ HandleRequest endpoints method urlStr (.ok body)
    ∧ (HandleRequest endpoints method urlStr (.ok body)).countP isEnqueueEvent = endpoints.length
    ∧ IngressEvent.respond 204 ∈ HandleRequest endpoints method urlStr (.ok body)
    ∧ HandleRequest endpoints method urlStr (.err msg)
        = [.incRequests, .incFailures, .respond 400] := by
  refine ⟨?_, ?_, ?_, ?_, rfl⟩
  · simp [HandleRequest]
  · simp [HandleRequest]
  · simp [HandleRequest, List.countP_cons, List.countP_append, isEnqueueEvent, countP_enqueue_map]
  · simp [HandleRequest]

/-- Claim C4: for every successfully read body the handler builds exactly
one record and enqueues that same record once into every configured
pipeline's inbox, in configuration order; the trace ends with the single
204 response, so every enqueue happens before the response is written and
there is exactly one response event. -/
theorem handleRequest_fanout_before_response (endpoints : List Endpoint)
    (method urlStr : String) (body : List Nat) :
    (HandleRequest endpoints method urlStr (.ok body)).filter isEnqueueEvent
        = endpoints.map (fun e =>
            IngressEvent.writerEnqueue e.name { method := method, url := urlStr, body := body })
    ∧ (HandleRequest endpoints method urlStr (.ok body)).getLast? = some (IngressEvent.respond 204)
    ∧ (HandleRequest endpoints method urlStr (.ok body)).filter isRespondEvent
        = [IngressEvent.respond 204] := by
  refine ⟨?_, ?_, ?_⟩
  · simp [HandleRequest, List.filter_cons, List.filter_append, isEnqueueEvent, filter_enqueue_map]
  · show (IngressEvent.incRequests ::
        (endpoints.map (fun e =>
          IngressEvent.writerEnqueue e.name { method := method, url := urlStr, body := body })
          ++ [IngressEvent.respond 204])).getLast? = some (IngressEvent.respond 204)
    rw [← List.cons_append, List.getLast?_concat]
  · simp [HandleRequest, List.filter_cons, List.filter_append, isRespondEvent, filter_respond_map]

/-- Claim C5: when `client.Do` returns a transport error the worker
re-enqueues exactly that record into the same pipeline's `Writer` channel
(once, so the record is not dropped), keeps its state, and the loop
continues with the next record. -/
theorem httpWorker_reenqueue_on_transport_error (e : Endpoint) (count : Nat)
    (req : Request) (msg : String) (elapsedNs : Nat)
    (rest : List (Request × NewRequestResult × DoResult × Nat)) :
    WorkerEvent.writerEnqueue e.name req ∈
        (HTTPWorkerStep e count req .ok (.transportError msg) elapsedNs).2
    ∧ (HTTPWorkerStep e count req .ok (.transportError msg) elapsedNs).2.countP
        isWriterEnqueue = 1
    ∧ (HTTPWorkerRun e count ((req, .ok, .transportError msg, elapsedNs) :: rest)).2
        = (HTTPWorkerStep e count req .ok (.transportError msg) elapsedNs).2
          ++ (HTTPWorkerRun e count rest).2 := by
  refine ⟨?_, ?_, rfl⟩
  · simp [HTTPWorkerStep]
  · simp [HTTPWorkerStep, List.countP_cons, isWriterEnqueue]

/-- Claim C6: when `client.Do` returns a response — any status code,
including 5xx — the worker drains and closes the body and the record is
treated as delivered: no re-enqueue and no failure increment occur. -/
theorem httpWorker_response_is_delivered (e : Endpoint) (count : Nat) (req : Request)
    (status : Nat) (elapsedNs : Nat) :
    WorkerEvent.drainAndCloseBody ∈
        (HTTPWorkerStep e count req .ok (.response status) elapsedNs).2
    ∧ (HTTPWorkerStep e count req .ok (.response status) elapsedNs).2.countP
        isWriterEnqueue = 0
    ∧ (HTTPWorkerStep e count req .ok (.response status) elapsedNs).2.countP
        (isIncFailuresFor e.name) = 0 := by
  refine ⟨?_, ?_, ?_⟩ <;>
    simp [HTTPWorkerStep, List.countP_cons, isWriterEnqueue, isIncFailuresFor]

/-- Claim C7: the zero-value defaults of `ListenAndServe`: a zero
`http.timeout` becomes 10 seconds, a zero `http.concurrency` becomes 25,
a zero `queue.max_message_size` becomes 10 MiB, and non-zero configured
values pass through unchanged. -/
theorem listenAndServe_config_defaults (cfg : Config) :
    ((cfg.httpTimeoutNs = 0 → (applyDefaults cfg).1 = 10 * 1000000000)
      ∧ (cfg.httpTimeoutNs ≠ 0 → (applyDefaults cfg).1 = cfg.httpTimeoutNs))
    ∧ ((cfg.httpConcurrency = 0 → (applyDefaults cfg).2.2 = 25)
      ∧ (cfg.httpConcurrency ≠ 0 → (applyDefaults cfg).2.2 = cfg.httpConcurrency))
    ∧ ((cfg.queueMaxMessageSize = 0 → (applyDefaults cfg).2.1 = 1024 * 1024 * 10)
      ∧ (cfg.queueMaxMessageSize ≠ 0 → (applyDefaults cfg).2.1 = cfg.queueMaxMessageSize)) := by
  unfold applyDefaults
  refine ⟨⟨?_, ?_⟩, ⟨?_, ?_⟩, ⟨?_, ?_⟩⟩ <;> intro h <;> simp [h]

/-- Witness for C7 at concrete configurations: an all-zero configuration
gets all three defaults and an all-non-zero configuration is unchanged. -/
theorem listenAndServe_config_defaults_witness :
    (applyDefaults cfgAllZero).1 = 10 * 1000000000
    ∧ (applyDefaults cfgAllZero).2.2 = 25
    ∧ (applyDefaults cfgAllZero).2.1 = 1024 * 1024 * 10
    ∧ (applyDefaults cfgNonZero).1 = 7
    ∧ (applyDefaults cfgNonZero).2.2 = 8
    ∧ (applyDefaults cfgNonZero).2.1 = 9 :=
  ⟨(listenAndServe_config_defaults _).1.1 rfl,
   (listenAndServe_config_defaults _).2.1.1 rfl,
   (listenAndServe_config_defaults _).2.2.1 rfl,
   (listenAndServe_config_defaults _).1.2 (by decide),
   (listenAndServe_config_defaults _).2.1.2 (by decide),
   (listenAndServe_config_defaults _).2.2.2 (by decide)⟩

/-- Claim C8 counterexample: with an empty endpoints list startup does not
exit fatally — `ListenAndServe` reaches the serving stage with zero
endpoint pipelines. -/
theorem empty_endpoints_not_fatal_cex :
    isFatalExit (ListenAndServe cfgAllZero) = false
    ∧ ListenAndServe cfgAllZero = StartupOutcome.serving 10000000000 10485760 25 [] := by
  decide

/-- Claim C8 (amended): a missing or empty endpoints list is accepted by
startup: for any configured values, `ListenAndServe` proceeds to serve
with zero endpoint pipelines, and every successfully read ingress request
is then answered 204 without being enqueued anywhere. -/
theorem empty_endpoints_serves_zero_pipelines (t c m : Nat)
    (method urlStr : String) (body : List Nat) :
    ListenAndServe ⟨t, c, m, []⟩
      = StartupOutcome.serving (applyDefaults ⟨t, c, m, []⟩).1 (applyDefaults ⟨t, c, m, []⟩).2.1
          (applyDefaults ⟨t, c, m, []⟩).2.2 []
    ∧ HandleRequest [] method urlStr (.ok body)
        = [IngressEvent.incRequests, IngressEvent.respond 204] :=
  ⟨rfl, rfl⟩

/-- Claim C9: on every dispatch that reaches `client.Do` the worker
increments `endpoint_requests{name}` exactly once, increments
`endpoint_failures{name}` exactly when the call returns a transport error,
and observes `endpoint_latency_us{name}` exactly once with the elapsed
nanoseconds integer-divided by 1000, in both the success and the error
branch. -/
theorem httpWorker_metrics_per_dispatch (e : Endpoint) (count : Nat) (req : Request)
    (doRes : DoResult) (elapsedNs : Nat) :
    (HTTPWorkerStep e count req .ok doRes elapsedNs).2.countP (isIncRequestsFor e.name) = 1
    ∧ (HTTPWorkerStep e count req .ok doRes elapsedNs).2.countP (isIncFailuresFor e.name)
        = (match doRes with | .transportError _ => 1 | .response _ => 0)
    ∧ (HTTPWorkerStep e count req .ok doRes elapsedNs).2.countP
        (isObserveLatencyFor e.name (elapsedNs / 1000)) = 1 := by
  cases doRes <;> refine ⟨?_, ?_, ?_⟩ <;>
    simp [HTTPWorkerStep, List.countP_cons, isIncRequestsFor, isIncFailuresFor,
      isObserveLatencyFor]

/-- Claim C10: when `http.NewRequest` fails the worker logs and continues:
the iteration produces no events at all — no re-enqueue, no
`endpoint_requests` or `endpoint_failures` increment, no latency sample —
so the record is silently dropped. -/
theorem httpWorker_newRequest_error_silent_drop (e : Endpoint) (count : Nat) (req : Request)
    (msg : String) (doRes : DoResult) (elapsedNs : Nat) :
    (HTTPWorkerStep e count req (.err msg) doRes elapsedNs).2 = []
    ∧ (HTTPWorkerStep e count req (.err msg) doRes elapsedNs).2.countP isWriterEnqueue = 0
    ∧ (HTTPWorkerStep e count req (.err msg) doRes elapsedNs).2.countP
        (isIncRequestsFor e.name) = 0
    ∧ (HTTPWorkerStep e count req (.err msg) doRes elapsedNs).2.countP
        (isIncFailuresFor e.name) = 0 :=
  ⟨rfl, rfl, rfl, rfl⟩

end QFlow
